import Mathlib

/-
Verification development for the go-osc package (osc/osc.go).

The Go source is embedded shallowly:
- Go byte slices and wire buffers are `List Nat` with entries below 256.
- Go machine integers are modelled as `Nat`/`Int` with explicit reduction
  modulo 2^32 / 2^64 where Go wraps (casts, shifts, unsigned arithmetic).
- Go strings are Lean `String`; the wire level works on their byte lists
  via `strToBytes`/`bytesToStr` (all inputs of interest are ASCII, where
  one `Char` is one byte, matching Go's `len` and rune iteration).
- float32/float64 arguments are carried as their IEEE-754 bit patterns
  (`Nat` below 2^32 / 2^64): `binary.Write`/`binary.Read` copy the bits
  verbatim, so the codec never interprets them.
- `time.Time` is modelled as a pair (unix seconds : Int, nanoseconds : Nat),
  the only two observations osc.go makes of it (`Unix()`, `Nanosecond()`).
- fallible Go functions returning (value, error) become `Except`.
Each definition carries a comment naming the Go function it embeds.
-/

namespace GoOsc

/-- Wire buffers and readers are byte lists (entries below 256 by construction). -/
abbrev Rd := List Nat

/-- padBytesNeeded (osc.go): 4*(elementLen/4+1) - elementLen. Always in 1..4. -/
def padBytesNeeded (elementLen : Nat) : Nat :=
  4 * (elementLen / 4 + 1) - elementLen

/-- Big-endian 4-byte encoding of a Nat below 2^32 (binary.Write of an int32/uint32 bit pattern). -/
def be32 (n : Nat) : List Nat :=
  [n / 16777216 % 256, n / 65536 % 256, n / 256 % 256, n % 256]

/-- Big-endian 8-byte encoding of a Nat below 2^64 (binary.Write of an int64/uint64 bit pattern). -/
def be64 (n : Nat) : List Nat :=
  [n / 72057594037927936 % 256, n / 281474976710656 % 256, n / 1099511627776 % 256,
   n / 4294967296 % 256, n / 16777216 % 256, n / 65536 % 256, n / 256 % 256, n % 256]

/-- Big-endian value of a byte list (binary.Read of an unsigned bit pattern). -/
def fromBE (bs : List Nat) : Nat :=
  bs.foldl (fun a b => a * 256 + b) 0

/-- Bytes of a Go string (ASCII: one Char = one byte, matching Go len/indexing). -/
def strToBytes (s : String) : List Nat :=
  s.data.map Char.toNat

/-- Go string from raw bytes (ASCII range). -/
def bytesToStr (l : List Nat) : String :=
  String.mk (l.map Char.ofNat)

/-- Reinterpret a Nat below 2^32 as Go int32 (two's complement). -/
def unToInt32 (n : Nat) : Int :=
  if n < 2147483648 then (n : Int) else (n : Int) - 4294967296

/-- Reinterpret a Nat below 2^64 as Go int64 (two's complement). -/
def unToInt64 (n : Nat) : Int :=
  if n < 9223372036854775808 then (n : Int) else (n : Int) - 18446744073709551616

/-- Two's-complement bits of a Go int32 value. -/
def int32Bits (i : Int) : Nat :=
  (i % (4294967296 : Int)).toNat

/-- Two's-complement bits of a Go int64 value. -/
def int64Bits (i : Int) : Nat :=
  (i % (18446744073709551616 : Int)).toNat

/-- Constant secondsFrom1900To1970 (osc.go). -/
def secondsFrom1900To1970 : Int := 2208988800

/-- timeToTimetag (osc.go): uint64((secondsFrom1900To1970 + time.Unix()) << 32)
plus uint64(uint32(time.Nanosecond())). The int64 shift then uint64 conversion is
the two's-complement bits, i.e. reduction modulo 2^64; the uint32 cast is modulo
2^32; the final uint64 addition wraps modulo 2^64. -/
def timeToTimetag (unix : Int) (ns : Nat) : Nat :=
  ((((secondsFrom1900To1970 + unix) * 4294967296) % (18446744073709551616 : Int)).toNat
    + ns % 4294967296) % 18446744073709551616

/-- timetagToTime (osc.go): time.Unix(int64((timetag>>32)-secondsFrom1900To1970),
int64(timetag&0xffffffff)). The uint64 subtraction wraps modulo 2^64; Go's
time.Unix normalises an out-of-range nanosecond argument into the seconds,
which is the only observable effect here since osc.go reads back only
Unix() and Nanosecond(). Returns (unix seconds, nanoseconds). -/
def timetagToTime (timetag : Nat) : Int × Nat :=
  let nsec : Nat := timetag % 4294967296
  let secs : Int :=
    unToInt64 ((timetag / 4294967296 + 18446744073709551616 - 2208988800) % 18446744073709551616)
  (secs + (nsec / 1000000000 : Nat), nsec % 1000000000)

/-- OscTimetag (osc.go): the uint64 tag plus the stored time.Time (unix, ns) and MinValue. -/
structure OscTimetag where
  timeTag : Nat
  timeUnix : Int
  timeNs : Nat
  MinValue : Nat
deriving DecidableEq

/-- NewOscTimetag (osc.go). -/
def NewOscTimetag (unix : Int) (ns : Nat) : OscTimetag :=
  { timeTag := timeToTimetag unix ns, timeUnix := unix, timeNs := ns, MinValue := 1 }

/-- NewOscTimetagFromTimetag (osc.go): converts to a time and back. -/
def NewOscTimetagFromTimetag (timetag : Nat) : OscTimetag :=
  let t := timetagToTime timetag
  NewOscTimetag t.1 t.2

/-- OscTimetag.ToByteArray (osc.go): 8-byte big-endian tag. -/
def OscTimetag.ToByteArray (t : OscTimetag) : List Nat :=
  be64 t.timeTag

/-- The dynamic `interface\x7b\x7d` argument slot of OscMessage. `aNil` is the nil
interface value (matched by Go's `case nil`); `aOther` stands for any dynamic
type outside the encoder's switch (its default case). Floats carry IEEE bits. -/
inductive OscArg where
  | aBool (b : Bool)
  | aNil
  | aInt32 (i : Int)
  | aInt64 (i : Int)
  | aFloat32 (bits : Nat)
  | aFloat64 (bits : Nat)
  | aString (s : String)
  | aBlob (b : List Nat)
  | aTimetag (t : OscTimetag)
  | aOther (desc : String)
deriving DecidableEq

/-- OscMessage (osc.go): Address plus the private arguments slice. -/
structure OscMessage where
  Address : String
  arguments : List OscArg
deriving DecidableEq

/-- NewOscMessage (osc.go). -/
def NewOscMessage (address : String) : OscMessage :=
  { Address := address, arguments := [] }

/-- OscMessage.Append (osc.go): a nil argument is skipped and the zero-valued
error (nil) is returned; anything else is appended, also returning nil. -/
def OscMessage.Append (msg : OscMessage) (argument : OscArg) : OscMessage × Option String :=
  if argument = OscArg.aNil then (msg, none)
  else ({ msg with arguments := msg.arguments ++ [argument] }, none)

/-- OscMessage.Match (osc.go): the body is a TODO stub; both branches of its
single comparison return true, so every pattern matches every address. -/
def OscMessage.Match (msg : OscMessage) (address : String) : Bool :=
  if msg.Address = address then true else true

/-- OscMessage.CountArguments (osc.go). -/
def OscMessage.CountArguments (msg : OscMessage) : Nat :=
  msg.arguments.length

/-- writePaddedBytes: the byte-level content of writePaddedString (osc.go):
the bytes followed by padBytesNeeded zero bytes (always at least one, which
serves as the NUL terminator). -/
def writePaddedBytes (l : List Nat) : List Nat :=
  l ++ List.replicate (padBytesNeeded l.length) 0

/-- writePaddedString (osc.go) as the byte list it appends to the buffer. -/
def writePaddedString (s : String) : List Nat :=
  writePaddedBytes (strToBytes s)

/-- writeBlob (osc.go): big-endian int32 length, the data, then padBytesNeeded
zero bytes (the `if numPadBytes > 0` guard is always taken since
padBytesNeeded is at least 1). -/
def writeBlob (data : List Nat) : List Nat :=
  be32 (data.length % 4294967296) ++ data ++ List.replicate (padBytesNeeded data.length) 0

/-- One case of the encoder's type switch in OscMessage.ToByteArray (osc.go):
yields the type-tag byte and the payload bytes. Its default case is an error. -/
def encodeArg : OscArg → Except String (Nat × List Nat)
  | OscArg.aBool true => Except.ok (84, [])
  | OscArg.aBool false => Except.ok (70, [])
  | OscArg.aNil => Except.ok (78, [])
  | OscArg.aInt32 i => Except.ok (105, be32 (int32Bits i))
  | OscArg.aFloat32 bits => Except.ok (102, be32 (bits % 4294967296))
  | OscArg.aString s => Except.ok (115, writePaddedString s)
  | OscArg.aBlob b => Except.ok (98, writeBlob b)
  | OscArg.aInt64 i => Except.ok (104, be64 (int64Bits i))
  | OscArg.aFloat64 bits => Except.ok (100, be64 (bits % 18446744073709551616))
  | OscArg.aTimetag t => Except.ok (116, OscTimetag.ToByteArray t)
  | OscArg.aOther desc => Except.error ("OSC - unsupported type: " ++ desc)

/-- The encoder loop of OscMessage.ToByteArray (osc.go): collects the type-tag
bytes and the concatenated payload, stopping at the first unsupported argument. -/
def encodeArgsList : List OscArg → Except String (List Nat × List Nat)
  | [] => Except.ok ([], [])
  | a :: rest =>
    match encodeArg a with
    | Except.error e => Except.error e
    | Except.ok (tag, pay) =>
      match encodeArgsList rest with
      | Except.error e => Except.error e
      | Except.ok (tags, pays) => Except.ok (tag :: tags, pay ++ pays)

/-- OscMessage.ToByteArray (osc.go): padded address, padded type-tag string
(a comma, byte 44, followed by one tag byte per argument), then the payload. -/
def OscMessage.ToByteArray (msg : OscMessage) : Except String (List Nat) :=
  match encodeArgsList msg.arguments with
  | Except.error e => Except.error e
  | Except.ok (tags, payload) =>
    Except.ok (writePaddedString msg.Address ++ writePaddedBytes (44 :: tags) ++ payload)

/-- OscBundle (osc.go): Timetag plus separate lists of message and nested
bundle elements (the Go struct keeps the two element kinds apart). -/
inductive OscBundle where
  | mk (Timetag : OscTimetag) (Messages : List OscMessage) (Bundles : List OscBundle)

/-- OscPacket (osc.go): the interface implemented by OscMessage and OscBundle. -/
inductive OscPacket where
  | msg (m : OscMessage)
  | bundle (b : OscBundle)

/-- NewOscBundle (osc.go): fresh timetag from the given time, no elements. -/
def NewOscBundle (unix : Int) (ns : Nat) : OscBundle :=
  OscBundle.mk (NewOscTimetag unix ns) [] []

/-- OscBundle.Append (osc.go): type-switch appending a message to the message
list or a bundle to the bundle list (the source writes to lowercase fields
`messages`/`bundles`; the struct declares `Messages`/`Bundles` - the embedding
uses the declared fields, the only ones that exist). -/
def OscBundle.Append : OscBundle → OscPacket → OscBundle
  | OscBundle.mk tt ms bs, OscPacket.msg m => OscBundle.mk tt (ms ++ [m]) bs
  | OscBundle.mk tt ms bs, OscPacket.bundle b => OscBundle.mk tt ms (bs ++ [b])

/-- The message half of OscBundle.ToByteArray (osc.go): every message encoded
and preceded by its big-endian int32 byte length. -/
def encodeMessages : List OscMessage → Except String (List Nat)
  | [] => Except.ok []
  | m :: rest =>
    match m.ToByteArray with
    | Except.error e => Except.error e
    | Except.ok mb =>
      match encodeMessages rest with
      | Except.error e => Except.error e
      | Except.ok rb => Except.ok (be32 (mb.length % 4294967296) ++ mb ++ rb)

mutual

/-- OscBundle.ToByteArray (osc.go): the literal "#bundle" padded string, the
8-byte timetag, all messages with length prefixes, then all nested bundles
with length prefixes (the Go struct keeps messages and bundles in two lists
and serialises all messages first). -/
def OscBundle.ToByteArray : OscBundle → Except String (List Nat)
  | OscBundle.mk tt msgs bundles =>
    match encodeMessages msgs with
    | Except.error e => Except.error e
    | Except.ok msgBytes =>
      match encodeBundles bundles with
      | Except.error e => Except.error e
      | Except.ok bundleBytes =>
        Except.ok (writePaddedString "#bundle" ++ be64 tt.timeTag ++ msgBytes ++ bundleBytes)

/-- The nested-bundle half of OscBundle.ToByteArray (osc.go): every nested
bundle encoded recursively and preceded by its big-endian int32 byte length. -/
def encodeBundles : List OscBundle → Except String (List Nat)
  | [] => Except.ok []
  | b :: rest =>
    match OscBundle.ToByteArray b with
    | Except.error e => Except.error e
    | Except.ok bb =>
      match encodeBundles rest with
      | Except.error e => Except.error e
      | Except.ok rb => Except.ok (be32 (bb.length % 4294967296) ++ bb ++ rb)

end

/-- OscPacket.ToByteArray: dynamic dispatch of the OscPacket interface. -/
def OscPacket.ToByteArray : OscPacket → Except String (List Nat)
  | OscPacket.msg m => m.ToByteArray
  | OscPacket.bundle b => b.ToByteArray

/-- Decode-side errors. `swappedReturn` models the literal final statement of
OscServer.readBundle (osc.go), `return nil, bundle`: the bundle value is placed
in the error result slot and nil in the bundle slot, so every caller that
checks `err != nil` treats the call as failed and propagates this value. -/
inductive DecodeErr where
  | emsg (s : String)
  | swappedReturn (b : OscBundle)

/-- bufio ReadString(0): split at the first zero byte (the delimiter is
consumed and dropped); none when the buffer holds no zero byte, in which case
ReadString reports an error and readPaddedString fails. -/
def splitAtZero : List Nat → Option (List Nat × List Nat)
  | [] => none
  | b :: rest =>
    if b = 0 then some ([], rest)
    else
      match splitAtZero rest with
      | none => none
      | some (s, r) => some (b :: s, r)

/-- binary.Read of an n-byte value: exactly n bytes or an error. -/
def readN (n : Nat) (r : Rd) : Except DecodeErr (List Nat × Rd) :=
  if r.length < n then Except.error (DecodeErr.emsg "EOF")
  else Except.ok (r.take n, r.drop n)

/-- readPaddedString (osc.go): ReadString through the NUL, strip it, then
consume padBytesNeeded(len)-1 further padding bytes via reader.Read (which
errors only when nothing at all is left, and otherwise consumes at most what
is available). -/
def readPaddedString (r : Rd) : Except DecodeErr (String × Rd) :=
  match splitAtZero r with
  | none => Except.error (DecodeErr.emsg "EOF")
  | some (sb, rest) =>
    let padLen := padBytesNeeded sb.length - 1
    if 0 < padLen then
      if rest = [] then Except.error (DecodeErr.emsg "EOF")
      else Except.ok (bytesToStr sb, rest.drop padLen)
    else Except.ok (bytesToStr sb, rest)

/-- readBlob (osc.go): the body is a TODO stub; it returns the empty buffer,
consumes nothing and reports no error. -/
def readBlob (r : Rd) : Except DecodeErr (List Nat × Rd) :=
  Except.ok ([], r)

/-- The tag loop of OscServer.readArguments (osc.go), one step per type-tag
byte. Tags i/h/f/d read fixed-width big-endian payloads, s a padded string,
b a blob (the stub), t an 8-byte timetag whose read failure makes the source
`return nil` - a nil error, aborting the loop as a success. T and F both
execute binary.Read into a bool, consuming ONE byte and appending that byte's
truthiness; there is no case for N, so it falls to the default error. Appends
go through OscMessage.Append, whose error Go discards. -/
def readArgsLoop : List Nat → OscMessage → Rd → Except DecodeErr (OscMessage × Rd)
  | [], msg, r => Except.ok (msg, r)
  | c :: cs, msg, r =>
    if c = 105 then
      match readN 4 r with
      | Except.error e => Except.error e
      | Except.ok (bs, r1) =>
        readArgsLoop cs (msg.Append (OscArg.aInt32 (unToInt32 (fromBE bs)))).1 r1
    else if c = 104 then
      match readN 8 r with
      | Except.error e => Except.error e
      | Except.ok (bs, r1) =>
        readArgsLoop cs (msg.Append (OscArg.aInt64 (unToInt64 (fromBE bs)))).1 r1
    else if c = 102 then
      match readN 4 r with
      | Except.error e => Except.error e
      | Except.ok (bs, r1) =>
        readArgsLoop cs (msg.Append (OscArg.aFloat32 (fromBE bs))).1 r1
    else if c = 100 then
      match readN 8 r with
      | Except.error e => Except.error e
      | Except.ok (bs, r1) =>
        readArgsLoop cs (msg.Append (OscArg.aFloat64 (fromBE bs))).1 r1
    else if c = 115 then
      match readPaddedString r with
      | Except.error e => Except.error e
      | Except.ok (s, r1) =>
        readArgsLoop cs (msg.Append (OscArg.aString s)).1 r1
    else if c = 98 then
      match readBlob r with
      | Except.error e => Except.error e
      | Except.ok (buf, r1) =>
        readArgsLoop cs (msg.Append (OscArg.aBlob buf)).1 r1
    else if c = 116 then
      match readN 8 r with
      | Except.error _ => Except.ok (msg, r)
      | Except.ok (bs, r1) =>
        readArgsLoop cs (msg.Append (OscArg.aTimetag (NewOscTimetagFromTimetag (fromBE bs)))).1 r1
    else if c = 84 then
      match readN 1 r with
      | Except.error e => Except.error e
      | Except.ok (bs, r1) =>
        readArgsLoop cs (msg.Append (OscArg.aBool (bs.headD 0 != 0))).1 r1
    else if c = 70 then
      match readN 1 r with
      | Except.error e => Except.error e
      | Except.ok (bs, r1) =>
        readArgsLoop cs (msg.Append (OscArg.aBool (bs.headD 0 != 0))).1 r1
    else Except.error (DecodeErr.emsg ("Unsupported type tag: " ++ bytesToStr [c]))

/-- OscServer.readArguments (osc.go): read the padded type-tag string, fail
unless its first byte is a comma (byte 44; indexing an empty string would
panic in Go), then run the tag loop over the remaining tag bytes. -/
def readArguments (msg : OscMessage) (r : Rd) : Except DecodeErr (OscMessage × Rd) :=
  match readPaddedString r with
  | Except.error e => Except.error e
  | Except.ok (typetags, r1) =>
    match strToBytes typetags with
    | [] => Except.error (DecodeErr.emsg "panic: index out of range")
    | c :: cs =>
      if c = 44 then readArgsLoop cs msg r1
      else Except.error (DecodeErr.emsg "Unsupported type tag string")

/-- OscServer.readMessage (osc.go): padded address, then the arguments. -/
def readMessage (r : Rd) : Except DecodeErr (OscMessage × Rd) :=
  match readPaddedString r with
  | Except.error e => Except.error e
  | Except.ok (address, r1) => readArguments (NewOscMessage address) r1

/-- OscServer.readBundle (osc.go), recursion on a fuel bound (each nesting
level consumes at least 20 bytes before recursing, so fuel = buffer length
always suffices). Reads the "#bundle" tag, the 8-byte timetag (the source
passes the int64 it read to timetagToTime, which takes a uint64: the bits are
reinterpreted), builds a fresh bundle, reads the int32 size of the FIRST
element only (the source line assigns binary.Read's error result to msgLen;
the embedding keeps the only executable meaning: the four size bytes are
consumed and the size is checked), peeks one byte and reads at most that one
element. The final statement is `return nil, bundle`, embedded as
DecodeErr.swappedReturn, so this function never returns a bundle in the value
slot; a nested readBundle call therefore always reports an error, which the
outer call propagates before reaching its own Append. -/
def readBundle : Nat → Rd → Except DecodeErr (OscBundle × Rd)
  | 0, _ => Except.error (DecodeErr.emsg "bundle nesting exceeds the fuel bound")
  | fuel + 1, r =>
    match readPaddedString r with
    | Except.error e => Except.error e
    | Except.ok (startTag, r1) =>
      if startTag = "#bundle" then
        match readN 8 r1 with
        | Except.error e => Except.error e
        | Except.ok (ttBytes, r2) =>
          let t := timetagToTime (fromBE ttBytes)
          let bundle0 := NewOscBundle t.1 t.2
          match readN 4 r2 with
          | Except.error e => Except.error e
          | Except.ok (lenBytes, r3) =>
            if unToInt32 (fromBE lenBytes) < 1 then
              Except.error (DecodeErr.emsg "No bundle element found")
            else
              match r3 with
              | [] => Except.error (DecodeErr.emsg "EOF")
              | c :: _ =>
                if c = 47 then
                  match readMessage r3 with
                  | Except.error e => Except.error e
                  | Except.ok (msg, _) =>
                    Except.error (DecodeErr.swappedReturn (bundle0.Append (OscPacket.msg msg)))
                else if c = 35 then
                  match readBundle fuel r3 with
                  | Except.error e => Except.error e
                  | Except.ok (b, _) =>
                    Except.error (DecodeErr.swappedReturn (bundle0.Append (OscPacket.bundle b)))
                else Except.error (DecodeErr.swappedReturn bundle0)
      else Except.error (DecodeErr.emsg ("Invalid bundle start tag: " ++ startTag))

/-- OscServer.readFromConnection (osc.go), from the Peek(1) on the received
datagram onward (the UDP read itself is transport). time.Now() is the
(nowUnix, nowNs) parameter. A leading byte 47 is a slash: the message is read
and wrapped in a fresh immediate bundle. A leading byte 35 is a hash: the
bundle is read (readBundle's swapped return makes this branch always
propagate an error). ANY OTHER leading byte falls through both branches and
the function returns its still-nil bundle with a nil error: Except.ok none. -/
def readFromConnection (nowUnix : Int) (nowNs : Nat) (buf : Rd) :
    Except DecodeErr (Option OscBundle) :=
  match buf with
  | [] => Except.error (DecodeErr.emsg "EOF")
  | c :: _ =>
    if c = 47 then
      match readMessage buf with
      | Except.error e => Except.error e
      | Except.ok (msg, _) =>
        Except.ok (some ((NewOscBundle nowUnix nowNs).Append (OscPacket.msg msg)))
    else if c = 35 then
      match readBundle buf.length buf with
      | Except.error e => Except.error e
      | Except.ok (bdl, _) => Except.ok (some bdl)
    else Except.ok none

/-- The network effects OscClient.Send (osc.go) depends on, as oracles:
the outcome of net.ResolveUDPAddr, of net.DialUDP on a possibly-nil address,
and of conn.Write on the encoded bytes. Addresses and connections are
abstracted to the string / unit carried in the success case. -/
structure NetEnv where
  resolve : Except String String
  dial : Option String → Except String Unit
  write : List Nat → Except String Unit

/-- OscClient.Send (osc.go): `addr, _ := net.ResolveUDPAddr(...)` DISCARDS the
resolution error, keeping only the (possibly nil) address; then DialUDP,
encode, and Write errors are each returned to the caller. -/
def clientSend (env : NetEnv) (packet : OscPacket) : Option String :=
  let addr : Option String := env.resolve.toOption
  match env.dial addr with
  | Except.error e => some e
  | Except.ok _ =>
    match OscPacket.ToByteArray packet with
    | Except.error e => some e
    | Except.ok data =>
      match env.write data with
      | Except.error e => some e
      | Except.ok _ => none

/-- A message built through the public API: NewOscMessage then a sequence of
Append calls (the arguments field is package-private, so Append is the only
way application code adds arguments). -/
def buildMessage (address : String) (args : List OscArg) : OscMessage :=
  args.foldl (fun acc a => (acc.Append a).1) (NewOscMessage address)

/-- Concrete network environment: resolution fails, dialling the resulting nil
address fails with DialUDP's own error, writes would succeed. -/
def c9env : NetEnv :=
  { resolve := Except.error "lookup failed: no such host"
  , dial := fun _ => Except.error "dial udp: missing address"
  , write := fun _ => Except.ok () }

/-- The bundle of claim C2's failing input: one message and one nested bundle,
both timetags at the 1900 epoch second 0. -/
def sampleBundle : OscBundle :=
  OscBundle.mk (NewOscTimetag 0 0) [{ Address := "/a", arguments := [] }]
    [OscBundle.mk (NewOscTimetag 0 0) [] []]

/-- Helper: OscMessage.Append never introduces the nil argument, so a foldl of
Append calls over a message without nil arguments yields a message without
nil arguments. -/
theorem buildMessage_preserves_no_nil (args : List OscArg) (m : OscMessage)
    (h : OscArg.aNil ∈ m.arguments → False) :
    OscArg.aNil ∈ (args.foldl (fun acc a => (acc.Append a).1) m).arguments → False := by
  induction args generalizing m with
  | nil => exact h
  | cons a rest ih =>
    intro hmem
    refine ih ((m.Append a).1) ?_ hmem
    intro hmem2
    by_cases ha : a = OscArg.aNil
    · rw [OscMessage.Append, if_pos ha] at hmem2
      exact h hmem2
    · rw [OscMessage.Append, if_neg ha] at hmem2
      rcases List.mem_append.mp hmem2 with h1 | h2
      · exact h h1
      · exact ha (List.mem_singleton.mp h2).symm

/-- Claim C1: for every Message over the supported variants, Decode(Encode(M))
equals M. The code violates this: encoding Bool(true) emits tag byte 84 with no
payload, but the decoder's tag-84 case executes binary.Read into a bool, which
demands one payload byte, so decoding the encoding of the message "/t" with the
single argument Bool(true) fails with EOF instead of returning the message. -/
theorem c1_roundtrip_fails_on_bool :
    OscMessage.ToByteArray { Address := "/t", arguments := [OscArg.aBool true] } =
      Except.ok [47, 116, 0, 0, 44, 84, 0, 0] ∧
    readMessage [47, 116, 0, 0, 44, 84, 0, 0] = Except.error (DecodeErr.emsg "EOF") :=
  ⟨rfl, rfl⟩

/-- Claim C2: a Bundle with one Message and one nested Bundle round-trips
through Encode/Decode. The code violates this: readBundle reads only the first
element and ends with `return nil, bundle`, placing the partially decoded
bundle in the error slot, so decoding the 48-byte encoding of sampleBundle
yields an error carrying only the message element - the nested bundle is lost
and no bundle is returned in the value slot. -/
theorem c2_bundle_roundtrip_fails :
    OscBundle.ToByteArray sampleBundle =
      Except.ok [35, 98, 117, 110, 100, 108, 101, 0, 131, 170, 126, 128, 0, 0, 0, 0,
                 0, 0, 0, 8, 47, 97, 0, 0, 44, 0, 0, 0,
                 0, 0, 0, 16, 35, 98, 117, 110, 100, 108, 101, 0, 131, 170, 126, 128, 0, 0, 0, 0] ∧
    readFromConnection 0 0
      [35, 98, 117, 110, 100, 108, 101, 0, 131, 170, 126, 128, 0, 0, 0, 0,
       0, 0, 0, 8, 47, 97, 0, 0, 44, 0, 0, 0,
       0, 0, 0, 16, 35, 98, 117, 110, 100, 108, 101, 0, 131, 170, 126, 128, 0, 0, 0, 0] =
      Except.error (DecodeErr.swappedReturn
        (OscBundle.mk (NewOscTimetag 0 0) [{ Address := "/a", arguments := [] }] [])) :=
  ⟨rfl, rfl⟩

/-- Claim C3: Match is anchored segment-wise pattern matching returning false
on non-matches, with Match("/foo/*", "/foo/bar/baz"), Match("/foo/\x7bbar,baz\x7d",
"/foo/qux") and Match("?oo", "fooo") all false. The code violates this: Match
is an unimplemented TODO stub whose both branches return true, so all three
supposedly non-matching pairs match. -/
theorem c3_match_is_a_stub :
    OscMessage.Match { Address := "/foo/bar/baz", arguments := [] } "/foo/*" = true ∧
    OscMessage.Match { Address := "/foo/qux", arguments := [] } "/foo/\x7bbar,baz\x7d" = true ∧
    OscMessage.Match { Address := "fooo", arguments := [] } "?oo" = true :=
  ⟨rfl, rfl, rfl⟩

/-- Claim C4: an encoded blob is the big-endian length, the data, and
(4 - N mod 4) mod 4 padding bytes, so a 4-byte blob encodes to 8 bytes with no
padding. The code violates the aligned case: padBytesNeeded is always in 1..4,
so a 3-byte blob gets 1 pad byte (8 bytes total, as claimed) but a 4-byte blob
gets 4 pad bytes, 12 bytes total instead of the claimed 8. -/
theorem c4_blob_padding_mismatch :
    writeBlob [1, 2, 3] = [0, 0, 0, 3, 1, 2, 3, 0] ∧
    (writeBlob [1, 2, 3]).length = 8 ∧
    writeBlob [9, 9, 9, 9] = [0, 0, 0, 4, 9, 9, 9, 9, 0, 0, 0, 0] ∧
    (writeBlob [9, 9, 9, 9]).length = 12 ∧
    padBytesNeeded 4 = 4 :=
  ⟨rfl, rfl, rfl, rfl, rfl⟩

/-- Claim C5: an encoded padded string is the string bytes, a NUL terminator,
and further NULs up to the smallest multiple of 4 that is at least length+1;
"abcd" encodes to 8 bytes and "abc" to 4. Confirmed: the encoding is the bytes
followed by padBytesNeeded(len) zero bytes (at least one, the terminator), and
its total length is divisible by 4, at least len+1, and less than len+5 -
exactly the smallest multiple of 4 that is at least len+1. -/
theorem c5_string_padding (s : String) :
    writePaddedString s = strToBytes s ++ 0 :: List.replicate (padBytesNeeded s.length - 1) 0 ∧
    1 ≤ padBytesNeeded s.length ∧
    (writePaddedString s).length % 4 = 0 ∧
    s.length + 1 ≤ (writePaddedString s).length ∧
    (writePaddedString s).length < s.length + 1 + 4 ∧
    (writePaddedString "abcd").length = 8 ∧
    (writePaddedString "abc").length = 4 := by
  have hlen : (strToBytes s).length = s.length := by
    simp only [strToBytes, List.length_map, String.length]
  have hpad1 : 1 ≤ padBytesNeeded s.length := by
    unfold padBytesNeeded; omega
  have hwlen : (writePaddedString s).length = s.length + padBytesNeeded s.length := by
    unfold writePaddedString writePaddedBytes
    rw [List.length_append, List.length_replicate, hlen]
  refine ⟨?_, hpad1, ?_, ?_, ?_, by rfl, by rfl⟩
  · unfold writePaddedString writePaddedBytes
    rw [hlen]
    obtain ⟨k, hk⟩ : ∃ k, padBytesNeeded s.length = k + 1 :=
      ⟨padBytesNeeded s.length - 1, by omega⟩
    rw [hk, List.replicate_succ]
    simp
  · rw [hwlen]; unfold padBytesNeeded; omega
  · rw [hwlen]; omega
  · rw [hwlen]; unfold padBytesNeeded; omega

/-- Claim C6: decoding tags T, F and N appends Bool(true), Bool(false) and Nil
while consuming zero payload bytes. The code violates all three: tag N (byte
78) hits the default case and fails as unsupported; tag T (byte 84) with no
remaining payload fails with EOF because binary.Read into a bool demands a
byte; and with payload byte 1 present it consumes that byte (the decoded value
is the byte's truthiness, not a fixed constant). Tag F (byte 70) runs the very
same read. -/
theorem c6_bool_nil_tags_mismatch :
    readArguments (NewOscMessage "/x") [44, 78, 0, 0] =
      Except.error (DecodeErr.emsg "Unsupported type tag: N") ∧
    readArguments (NewOscMessage "/x") [44, 84, 0, 0] = Except.error (DecodeErr.emsg "EOF") ∧
    readArguments (NewOscMessage "/x") [44, 84, 0, 0, 1] =
      Except.ok ({ Address := "/x", arguments := [OscArg.aBool true] }, ([] : Rd)) ∧
    readArguments (NewOscMessage "/x") [44, 70, 0, 0, 1] =
      Except.ok ({ Address := "/x", arguments := [OscArg.aBool true] }, ([] : Rd)) :=
  ⟨rfl, rfl, rfl, rfl⟩

/-- Claim C7: the constructed Timetag's low 32 bits are the sub-second
nanoseconds scaled by 2^32 / 10^9. The code violates this: for the wall-clock
time (unix 0, 500000000 ns) the low 32 bits hold the raw nanosecond count
500000000, while the claimed proportional scaling gives 2147483648 = 2^31; the
high 32 bits do hold the seconds since 1900 (2208988800), as claimed. -/
theorem c7_timetag_fraction_unscaled :
    timeToTimetag 0 500000000 % 4294967296 = 500000000 ∧
    timeToTimetag 0 500000000 / 4294967296 = 2208988800 ∧
    500000000 * 4294967296 / 1000000000 = 2147483648 ∧
    ((500000000 : Nat) == 2147483648) = false :=
  ⟨rfl, rfl, rfl, rfl⟩

/-- Claim C8: a top-level buffer starting with a byte other than 47 and 35
fails with a DecodeError. The code violates this: the leading-byte dispatch
has no else branch, so for the datagram [65, 0, 0, 0] readFromConnection
returns its still-nil bundle together with a nil error - Except.ok none, no
error at all. -/
theorem c8_unknown_leading_byte_silent :
    readFromConnection 0 0 [65, 0, 0, 0] = Except.ok none :=
  rfl

/-- Claim C9 counterexample: the resolution failure is NOT surfaced. In the
concrete environment c9env, resolution fails with "lookup failed: no such
host", but Send returns DialUDP's "dial udp: missing address" - a different
error - because `addr, _ :=` discards the resolution error. -/
theorem c9_resolution_error_not_surfaced :
    clientSend c9env (OscPacket.msg (NewOscMessage "/a")) = some "dial udp: missing address" ∧
    (("dial udp: missing address" : String) == "lookup failed: no such host") = false :=
  ⟨rfl, rfl⟩

/-- Claim C9 as amended: when resolution fails, Send ignores the resolution
error entirely (the result is the same whatever that error was) and dials with
a nil address; a dial failure's error is returned, an encode failure's error
is returned, and a write failure's error is returned. -/
theorem c9_send_error_paths (env : NetEnv) (p : OscPacket) (e : String)
    (h : env.resolve = Except.error e) :
    (∀ eo : String, clientSend env p = clientSend { env with resolve := Except.error eo } p) ∧
    (∀ ed : String, env.dial none = Except.error ed → clientSend env p = some ed) ∧
    (∀ ee : String, env.dial none = Except.ok () → OscPacket.ToByteArray p = Except.error ee →
      clientSend env p = some ee) ∧
    (∀ (data : List Nat) (ew : String), env.dial none = Except.ok () →
      OscPacket.ToByteArray p = Except.ok data → env.write data = Except.error ew →
      clientSend env p = some ew) := by
  refine ⟨fun eo => ?_, fun ed hd => ?_, fun ee hd he => ?_, fun data ew hd he hw => ?_⟩
  · simp only [clientSend, h, Except.toOption]
  · simp only [clientSend, h, Except.toOption, hd]
  · simp only [clientSend, h, Except.toOption, hd, he]
  · simp only [clientSend, h, Except.toOption, hd, he, hw]

/-- Witness for c9_send_error_paths at the concrete environment c9env. -/
theorem c9_send_error_paths_witness :
    clientSend c9env (OscPacket.msg (NewOscMessage "/a")) = some "dial udp: missing address" :=
  (c9_send_error_paths c9env (OscPacket.msg (NewOscMessage "/a"))
      "lookup failed: no such host" rfl).2.1 "dial udp: missing address" rfl

/-- Claim C10: Append with the nil argument returns a nil error and leaves the
arguments unchanged, so a Message built through the public Append API never
contains a Nil argument, although the encoder has a Nil case emitting tag 78.
Confirmed: Append on the nil interface value returns the unchanged message
with a nil error; any foldl of Append calls from NewOscMessage yields an
argument list not containing the nil value; and the encoder does emit type
tag 78 for a message that holds a Nil argument directly. -/
theorem c10_append_nil_noop :
    (∀ msg : OscMessage, msg.Append OscArg.aNil = (msg, none)) ∧
    (∀ (addr : String) (args : List OscArg),
      (buildMessage addr args).arguments.contains OscArg.aNil = false) ∧
    OscMessage.ToByteArray { Address := "/nil", arguments := [OscArg.aNil] } =
      Except.ok [47, 110, 105, 108, 0, 0, 0, 0, 44, 78, 0, 0] := by
  refine ⟨fun msg => by simp [OscMessage.Append], fun addr args => ?_, by rfl⟩
  have hnomem : OscArg.aNil ∈ (buildMessage addr args).arguments → False :=
    buildMessage_preserves_no_nil args (NewOscMessage addr) (by simp [NewOscMessage])
  cases hc : (buildMessage addr args).arguments.contains OscArg.aNil
  · rfl
  · exact absurd (List.elem_iff.mp hc) hnomem

end GoOsc
